import Mathlib

/-!
Shallow embedding of the SDRForge terminal dashboard (src/SDRForge.py).

Conventions of the embedding:
* Python `float` values are modelled as rationals (`ℚ`); decimal literals such
  as `0.22` denote the exact decimal rational.
* The transcendental helpers are abstracted: a parameter `sin2pi : ℚ → ℚ`
  stands for `fun x => math.sin(2 * math.pi * x)` and `expq : ℚ → ℚ` stands
  for `math.exp`.  Every property proved below holds for all choices of these
  parameters, which mirrors the fact that none of the verified claims depend
  on the actual transcendental values.
* Python `int` is `ℤ`; `int(x)` on a float is truncation toward zero (`pyInt`),
  `round(x)` is banker's rounding (`pyRound`), `x % m` is `pyMod`.
* Strings that are manipulated character by character are `List Char`.
-/

/-- Python `int(x)` applied to a (rational-modelled) float: truncation toward
zero. -/
def pyInt (x : ℚ) : ℤ := if 0 ≤ x then ⌊x⌋ else ⌈x⌉

/-- Python `round(x)` on a (rational-modelled) float: rounding half to even. -/
def pyRound (x : ℚ) : ℤ :=
  let f := ⌊x⌋
  let r := x - f
  if r < 1 / 2 then f
  else if 1 / 2 < r then f + 1
  else if f % 2 = 0 then f else f + 1

/-- Python `x % m` on (rational-modelled) floats; the result carries the sign
of `m` (here it is only used with `m > 0`). -/
def pyMod (x m : ℚ) : ℚ := x - m * ⌊x / m⌋

/-- The `SimSignal` dataclass of src/SDRForge.py (lines 252-256). -/
structure SimSignal where
  sr : ℤ
  samples : List ℚ
  label : String
  deriving Repr, DecidableEq

/-- One sample of scenario 1 ("pulse train"), src/SDRForge.py lines 266-271:
`t = i / sr`, gate on while `t % 0.22 < 0.06`,
sample `0.8 * burst * sin(2*pi*880*t)`. -/
def sample1 (sin2pi : ℚ → ℚ) (sr : ℤ) (i : ℕ) : ℚ :=
  let t : ℚ := (i : ℚ) / (sr : ℚ)
  let burst : ℚ := if pyMod t 0.22 < 0.06 then 1 else 0
  0.8 * burst * sin2pi (880 * t)

/-- One sample of scenario 2 ("FSK-ish"), src/SDRForge.py lines 273-282:
`bit_i = int(t * 120)`, bit is 1 unless `bit_i % 3 == 0`, frequency 1400 for
bit 1 else 900, sample `0.75 * sin(2*pi*f*t)`. -/
def sample2 (sin2pi : ℚ → ℚ) (sr : ℤ) (i : ℕ) : ℚ :=
  let t : ℚ := (i : ℚ) / (sr : ℚ)
  let bit_i : ℤ := pyInt (t * 120)
  let f : ℚ := if bit_i % 3 ≠ 0 then 1400 else 900
  0.75 * sin2pi (f * t)

/-- The helper `env_decay(t, k) = exp(-k * t)`, src/SDRForge.py lines 263-264. -/
def env_decay (expq : ℚ → ℚ) (t k : ℚ) : ℚ := expq (-k * t)

/-- One sample of scenario 3 ("doorbell burst"), src/SDRForge.py lines
284-292: zero after `t > 0.85`, else a chirp from 500 Hz ramping by
`1500 * min(1, t/0.35)` with envelope `0.95 * env_decay(t, 3.2)`. -/
def sample3 (sin2pi expq : ℚ → ℚ) (sr : ℤ) (i : ℕ) : ℚ :=
  let t : ℚ := (i : ℚ) / (sr : ℚ)
  if 0.85 < t then 0
  else
    let f : ℚ := 500 + 1500 * min 1 (t / 0.35)
    0.95 * env_decay expq t 3.2 * sin2pi (f * t)

/-- The generator `gen_sim_signal(scenario, seconds=1.25, sr=48000)`, src/SDRForge.py lines
259-294.  `n = int(seconds * sr)` samples are produced; scenario 1 and 2 have
dedicated branches and every other scenario value takes the `else` branch
(scenario 3).  Call sites that use the Python defaults pass `1.25` and
`48000` explicitly here. -/
def gen_sim_signal (sin2pi expq : ℚ → ℚ) ( scenario : ℤ) (seconds : ℚ)
    (sr : ℤ) : SimSignal :=
  let n : ℕ := (pyInt (seconds * (sr : ℚ))).toNat
  if scenario = 1 then
    { sr := sr, samples := (List.range n).map (sample1 sin2pi sr),
      label := "Scenario 1: pulse train" }
  else if scenario = 2 then
    { sr := sr, samples := (List.range n).map (sample2 sin2pi sr),
      label := "Scenario 2: FSK-ish" }
  else
    { sr := sr, samples := (List.range n).map (sample3 sin2pi expq sr),
      label := "Scenario 3: doorbell burst" }

/-- The 9-glyph ramp `" ▁▂▃▄▅▆▇█"` of `samples_to_sparkline`
(src/SDRForge.py line 230). -/
def blocks : List Char := " ▁▂▃▄▅▆▇█".toList

/-- The per-point glyph of `samples_to_sparkline` (src/SDRForge.py lines
232-235): `level = int(round((abs(x) / peak) * 8))` clamped to `[0, 8]`,
then indexed into `blocks`. -/
def sparkChar (peak x : ℚ) : Char :=
  let level := pyRound (|x| / peak * 8)
  blocks.getD (max 0 (min 8 level)).toNat ' '

/-- The renderer `samples_to_sparkline(samples, width)`, src/SDRForge.py lines 223-236.
Empty input returns the `"(no samples)"` placeholder; otherwise the effective
width is `max(10, width)`, every `step = max(1, len // width)`-th sample is
selected (truncated to `width` points), each point is normalised by the peak
absolute value (floored at `1e-9`) and quantised to a glyph. -/
def samples_to_sparkline (samples : List ℚ) (width : ℤ) : List Char :=
  if samples.isEmpty then "(no samples)".toList
  else
    let w : ℕ := (max 10 width).toNat
    let step : ℕ := max 1 (samples.length / w)
    let pts : List ℚ :=
      ((List.range' 0 ((samples.length + step - 1) / step) step).map
        (fun i => samples.getD i 0)).take w
    let peak : ℚ := max (1 / 1000000000) ((pts.map (fun x => |x|)).foldl max 0)
    pts.map (sparkChar peak)

/-- Mean absolute value of a chunk: `sum(abs(x) for x in seg) / len(seg)`
(src/SDRForge.py line 247). -/
def meanAbs (seg : List ℚ) : ℚ := (seg.map (fun x => |x|)).sum / (seg.length : ℚ)

/-- The chunking loop of `bits_from_samples` with chunk size `c + 1`
(src/SDRForge.py lines 243-248): each step consumes one chunk (the last one
may be shorter) and emits `'1'` when the chunk's mean absolute value reaches
the threshold, else `'0'`. -/
def bitsGo (c : ℕ) (thresh : ℚ) : List ℚ → List Char
  | [] => []
  | x :: xs =>
    (if thresh ≤ meanAbs ((x :: xs).take (c + 1)) then '1' else '0') ::
      bitsGo c thresh (xs.drop c)
termination_by l => l.length
decreasing_by
  simp only [List.length_drop, List.length_cons]
  omega

/-- The extractor `bits_from_samples(samples, chunk, thresh)`, src/SDRForge.py lines
239-249.  With `chunk = 0` the Python `range(0, len, 0)` raises `ValueError`,
modelled as `none`; otherwise empty input yields `""` and the chunking loop
runs. -/
def bits_from_samples (samples : List ℚ) (chunk : ℕ) (thresh : ℚ) :
    Option (List Char) :=
  match chunk with
  | 0 => none
  | c + 1 => some (if samples.isEmpty then [] else bitsGo c thresh samples)

/-- The output of `bits_from_samples` as the spec characterises it: one
character per chunk (`ceil(len / chunk)` of them), the `i`-th being `'1'`
exactly when the `i`-th chunk's mean absolute value reaches the threshold. -/
def derivedBitsSpec (samples : List ℚ) (chunk : ℕ) (thresh : ℚ) : List Char :=
  (List.range ((samples.length + chunk - 1) / chunk)).map
    (fun i =>
      if thresh ≤ meanAbs ((samples.drop (i * chunk)).take chunk) then '1'
      else '0')

/-- The doorbell ASCII art (src/SDRForge.py lines 117-124) after
`strip("\n").splitlines()`. -/
def bellArt : List (List Char) :=
  ["  .----.",
   " / .--. \\",
   "| | () | |",
   "|  \x60--\x27  |",
   " \\      /",
   "  \x60----\x27"].map String.toList

/-- The laptop ASCII art (src/SDRForge.py lines 126-134) after
`strip("\n").splitlines()`. -/
def laptopArt : List (List Char) :=
  ["   _____________",
   "  |  _________  |",
   "  | |         | |",
   "  | |         | |",
   "  | |_________| |",
   "  |_____________|",
   "   \\___________/"].map String.toList

/-- The house ASCII art (src/SDRForge.py lines 136-144) after
`strip("\n").splitlines()`. -/
def houseArt : List (List Char) :=
  ["      /\\",
   "     /  \\",
   "    /____\\",
   "    | __ |",
   "    ||  ||",
   "    ||__||",
   "    |____|"].map String.toList

/-- Constant `left_pad = 2` (src/SDRForge.py line 149). -/
def left_pad : ℕ := 2

/-- Constant `col_width = 24` (src/SDRForge.py line 150). -/
def col_width : ℕ := 24

/-- Constant `bell_col = 0 * col_width + left_pad` (src/SDRForge.py line 151). -/
def bell_col : ℕ := 0 * col_width + left_pad

/-- Constant `laptop_col = 1 * col_width + left_pad` (src/SDRForge.py line 152). -/
def laptop_col : ℕ := 1 * col_width + left_pad

/-- Constant `house_col = 2 * col_width + left_pad` (src/SDRForge.py line 153). -/
def house_col : ℕ := 2 * col_width + left_pad

/-- Constant `art_h = max(len(bell), len(laptop), len(house))` (line 159). -/
def art_h : ℕ := max bellArt.length (max laptopArt.length houseArt.length)

/-- Constant `scene_w = house_col + 22` (src/SDRForge.py line 160). -/
def scene_w : ℕ := house_col + 22

/-- Row index `path_y = art_h + 2` (src/SDRForge.py line 180). -/
def path_y : ℕ := art_h + 2

/-- Row index `labels_y = path_y + 2` (src/SDRForge.py line 192). -/
def labels_y : ℕ := path_y + 2

/-- Row index `sig_y = path_y - 1` (src/SDRForge.py line 202). -/
def sig_y : ℕ := path_y - 1

/-- Python slice assignment `l[pos : pos + len(seg)] = seg` on a character
list (src/SDRForge.py lines 171, 174, 177). -/
def stamp (l : List Char) (pos : ℕ) (seg : List Char) : List Char :=
  l.take pos ++ seg ++ l.drop (pos + seg.length)

/-- One art row of the canvas (src/SDRForge.py lines 167-178): a row of
`width = pad_left + scene_w` spaces with row `i` of each of the three art
blocks stamped in when it exists. -/
def artRow (p i : ℕ) : List Char :=
  let l0 := List.replicate (p + scene_w) ' '
  let l1 :=
    if i < bellArt.length then stamp l0 (p + bell_col) (bellArt.getD i [])
    else l0
  let l2 :=
    if i < laptopArt.length then stamp l1 (p + laptop_col) (laptopArt.getD i [])
    else l1
  if i < houseArt.length then stamp l2 (p + house_col) (houseArt.getD i [])
  else l2

/-- The canvas before any drawing (src/SDRForge.py lines 166-182): the
`art_h` art rows followed by blank rows appended `while len(canvas) <=
path_y + 3`. -/
def canvasInit (p : ℕ) : List (List Char) :=
  (List.range art_h).map (artRow p) ++
    List.replicate (path_y + 4 - art_h) (List.replicate (p + scene_w) ' ')

/-- The guarded per-character write loop `for i, ch in enumerate(seg): if 0 <=
pos + i < len(row): row[pos + i] = ch` (src/SDRForge.py lines 195-198 and
213-216). -/
def stampSetZ : List Char → ℤ → List Char → List Char
  | r, _, [] => r
  | r, pos, c :: cs =>
    stampSetZ (if 0 ≤ pos ∧ pos < (r.length : ℤ) then r.set pos.toNat c else r)
      (pos + 1) cs

/-- The connector path (src/SDRForge.py lines 185-189): dashes written at
columns `pad_left + bell_col + 10` up to (excluding) `pad_left + house_col +
8`; the `0 <= x < width` guard is `List.set`'s out-of-range no-op. -/
def dashRow (p : ℕ) (r : List Char) : List Char :=
  (List.range' (p + bell_col + 10) (house_col + 8 - (bell_col + 10))).foldl
    (fun acc x => acc.set x '-') r

/-- The labels row (src/SDRForge.py lines 192-199): `[Doorbell]`, `[Laptop]`
and `[House]` stamped at their columns. -/
def labelsRow (p : ℕ) (r : List Char) : List Char :=
  stampSetZ
    (stampSetZ (stampSetZ r ((p + bell_col : ℕ) : ℤ) "[Doorbell]".toList)
      ((p + laptop_col : ℕ) : ℤ) "[Laptop]".toList)
    ((p + house_col : ℕ) : ℤ) "[House]".toList

/-- Column `start_x` of the marker (src/SDRForge.py lines 203-208). -/
def sigStart (stage : ℤ) (p : ℕ) : ℤ :=
  if stage = 0 then (p : ℤ) + bell_col + 10 else (p : ℤ) + laptop_col + 8

/-- Column `end_x` of the marker (src/SDRForge.py lines 203-208). -/
def sigEnd (stage : ℤ) (p : ℕ) : ℤ :=
  if stage = 0 then (p : ℤ) + laptop_col - 2 else (p : ℤ) + house_col - 2

/-- Travel span `span = max(1, end_x - start_x)` (src/SDRForge.py line 210). -/
def sigSpan (stage : ℤ) (p : ℕ) : ℤ := max 1 (sigEnd stage p - sigStart stage p)

/-- Marker column `x = start_x + max(0, min(signal_index, span))` (src/SDRForge.py line
211): the leftmost column of the `)))` marker. -/
def markerX (signal_index stage : ℤ) (p : ℕ) : ℤ :=
  sigStart stage p + max 0 (min signal_index (sigSpan stage p))

/-- The canvas after the connector path is drawn (src/SDRForge.py lines
184-189): row `path_y` is read, overwritten with dashes and written back. -/
def canvasWithPath (p : ℕ) : List (List Char) :=
  (canvasInit p).set path_y (dashRow p ((canvasInit p).getD path_y []))

/-- The canvas after the labels are stamped (src/SDRForge.py lines 191-199):
row `labels_y` is read, the three labels are written into it and it is
written back. -/
def canvasStatic (p : ℕ) : List (List Char) :=
  (canvasWithPath p).set labels_y
    (labelsRow p ((canvasWithPath p).getD labels_y []))

/-- The full canvas of `build_scene` given the computed `pad_left = p`
(src/SDRForge.py lines 166-217): art rows and blank rows, then the path row,
the labels row and finally the `)))` marker written into row `sig_y` in the
source's order. -/
def buildCanvas (signal_index stage : ℤ) (p : ℕ) : List (List Char) :=
  (canvasStatic p).set sig_y
    (stampSetZ ((canvasStatic p).getD sig_y [])
      (markerX signal_index stage p) ")))".toList)

/-- Padding `pad_left = max(0, (term_w - scene_w) // 2)` after `term_w = max(term_w,
scene_w + 4)` (src/SDRForge.py lines 161-163); `//` is floor division. -/
def pad_left_of (term_w : ℤ) : ℤ :=
  max 0 ((max term_w ((scene_w : ℤ) + 4) - (scene_w : ℤ)).fdiv 2)

/-- The lines of the string built by `build_scene(signal_index, stage,
term_w)` (src/SDRForge.py lines 147-219). -/
def build_scene_lines (signal_index stage term_w : ℤ) : List (List Char) :=
  buildCanvas signal_index stage (pad_left_of term_w).toNat

/-- Function `build_scene` itself: the canvas rows joined with newlines (src/SDRForge.py
line 219). -/
def build_scene (signal_index stage term_w : ℤ) : String :=
  String.intercalate "\n"
    ((build_scene_lines signal_index stage term_w).map (fun l => String.mk l))

/-- The mutable state of `WaveViewerScreen` (src/SDRForge.py lines 297-313):
reactive `scenario` (default 3) and `paused` (default `False`), plus the
signal `_sig` and playback cursor `_cursor` set up by `_regenerate`. -/
structure WaveState where
  scenario : ℤ
  paused : Bool
  sig : SimSignal
  cursor : ℤ
  deriving Repr, DecidableEq

/-- Method `WaveViewerScreen._regenerate` (src/SDRForge.py lines 311-313):
the signal is rebuilt by `gen_sim_signal` from the current scenario with the
Python defaults `seconds=1.25`, `sr=48000`, and `self._cursor = 0`. -/
def wvRegenerate (sin2pi expq : ℚ → ℚ) (s : WaveState) : WaveState :=
  { s with sig := gen_sim_signal sin2pi expq s.scenario 1.25 48000,
           cursor := 0 }

/-- The state after `WaveViewerScreen.on_mount` (src/SDRForge.py lines
307-309): reactive defaults `scenario = 3`, `paused = False`, then
`_regenerate()`.  The placeholder signal is immediately overwritten by
`wvRegenerate`. -/
def wvInit (sin2pi expq : ℚ → ℚ) : WaveState :=
  wvRegenerate sin2pi expq
    { scenario := 3, paused := false,
      sig := { sr := 48000, samples := [], label := "" }, cursor := 0 }

/-- The state change of `WaveViewerScreen._tick` (src/SDRForge.py lines
315-322): when not paused, `self._cursor += int(self._sig.sr * 0.03)` and the
cursor resets to 0 when `self._cursor >= len(self._sig.samples)`.  The rest
of `_tick` only renders. -/
def wvTick (s : WaveState) : WaveState :=
  if s.paused then s
  else
    let c := s.cursor + pyInt ((s.sig.sr : ℚ) * 0.03)
    if (s.sig.samples.length : ℤ) ≤ c then { s with cursor := 0 }
    else { s with cursor := c }

/-- Python `int(k)` on the key strings `"1"`, `"2"`, `"3"`
(src/SDRForge.py line 368). -/
def scenarioOfKey (k : String) : ℤ :=
  if k = "1" then 1 else if k = "2" then 2 else 3

/-- Method `WaveViewerScreen.on_key` (src/SDRForge.py lines 348-370) restricted to
its effect on the session state: `escape`/`b` pop the screen (the session
state itself is untouched), `space` toggles `paused`, `r` regenerates, and
`"1"`/`"2"`/`"3"` set `scenario = int(k)` and regenerate.  Other keys do
nothing. -/
def wvOnKey (sin2pi expq : ℚ → ℚ) (k : String) (s : WaveState) : WaveState :=
  if k = "escape" ∨ k = "b" then s
  else if k = "space" then { s with paused := !s.paused }
  else if k = "r" then wvRegenerate sin2pi expq s
  else if k = "1" ∨ k = "2" ∨ k = "3" then
    wvRegenerate sin2pi expq { s with scenario := scenarioOfKey k }
  else s

/-- The states of the Wave Viewer Session reachable from a freshly mounted
screen by ticks and key events. -/
inductive WvReachable (sin2pi expq : ℚ → ℚ) : WaveState → Prop where
  | init : WvReachable sin2pi expq (wvInit sin2pi expq)
  | tick {s : WaveState} :
      WvReachable sin2pi expq s → WvReachable sin2pi expq (wvTick s)
  | key {s : WaveState} (k : String) :
      WvReachable sin2pi expq s → WvReachable sin2pi expq (wvOnKey sin2pi expq k s)

/-- The class-level animation state of `SDRForgeApp` (src/SDRForge.py lines
435-437): `_anim_idx`, `_anim_stage`, `_anim_running`. -/
structure AnimState where
  idx : ℤ
  stage : ℤ
  running : Bool
  deriving Repr, DecidableEq

/-- Method `SDRForgeApp._tick_doorbell` (src/SDRForge.py lines 472-479) restricted
to its state change: a no-op when not running, else `_anim_idx += 1`, and on
`_anim_idx >= 30` reset the index to 0 and flip `_anim_stage = 1 -
_anim_stage`. -/
def animTick (s : AnimState) : AnimState :=
  if !s.running then s
  else
    let idx := s.idx + 1
    if 30 ≤ idx then { idx := 0, stage := 1 - s.stage, running := s.running }
    else { s with idx := idx }

/-- A concrete paused wave-viewer state used to witness C10. -/
def pausedProbe : WaveState :=
  { scenario := 3, paused := true,
    sig := { sr := 48000, samples := [], label := "" }, cursor := 5 }

theorem gen_sim_signal_length (sin2pi expq : ℚ → ℚ) ( scenario : ℤ)
    (seconds : ℚ) (sr : ℤ) :
    (gen_sim_signal sin2pi expq scenario seconds sr).samples.length
      = (pyInt (seconds * (sr : ℚ))).toNat := by
  unfold gen_sim_signal
  split_ifs <;> simp

theorem gen_sim_signal_sr (sin2pi expq : ℚ → ℚ) ( scenario : ℤ)
    (seconds : ℚ) (sr : ℤ) :
    (gen_sim_signal sin2pi expq scenario seconds sr).sr = sr := by
  unfold gen_sim_signal
  split_ifs <;> rfl

theorem gen_default_length (sin2pi expq : ℚ → ℚ) ( scenario : ℤ) :
    (gen_sim_signal sin2pi expq scenario 1.25 48000).samples.length = 60000 := by
  rw [gen_sim_signal_length]
  norm_num [pyInt]
  decide

/-- C1 (amended): for positive duration and sample rate, the sample list of
`gen_sim_signal(scenario, seconds, sr)` has length `int(seconds * sr)`, the
floor of `seconds * sr` (Python `int()` truncation) — not its rounding; the
particular case `gen_sim_signal(1, 1.25, 48000)` still has exactly 60000
samples because `1.25 * 48000` is an integer. -/
theorem C1_gen_length_floor (sin2pi expq : ℚ → ℚ) ( scenario : ℤ)
    (seconds : ℚ) (sr : ℤ) (hs : 0 < seconds) (hr : 0 < sr) :
    ((gen_sim_signal sin2pi expq scenario seconds sr).samples.length : ℤ)
      = ⌊seconds * (sr : ℚ)⌋ := by
  rw [gen_sim_signal_length]
  have hnn : (0 : ℚ) ≤ seconds * (sr : ℚ) := by positivity
  rw [pyInt, if_pos hnn, Int.toNat_of_nonneg (Int.floor_nonneg.mpr hnn)]

/-- Witness for C1_gen_length_floor at the spec's example input
`(1, 1.25, 48000)`, where the length is 60000. -/
theorem C1_gen_length_floor_witness :
    ((gen_sim_signal (fun _ => 0) (fun _ => 0) 1 1.25 48000).samples.length : ℤ)
      = 60000 := by
  have h := C1_gen_length_floor (fun _ => 0) (fun _ => 0) 1 1.25 48000
    (by norm_num) (by norm_num)
  rw [h]
  norm_num

/-- C1 is false as stated: at `scenario = 1`, `seconds = 0.5`, `sr = 3` the
code produces `int(1.5) = 1` sample while `round(1.5) = 2`. -/
theorem C1_counterexample :
    ((gen_sim_signal (fun _ => 0) (fun _ => 0) 1 0.5 3).samples.length : ℤ)
      ≠ pyRound ((0.5 : ℚ) * 3) := by
  have hlen : ((gen_sim_signal (fun _ => (0:ℚ)) (fun _ => 0) 1 0.5 3).samples.length : ℤ) = 1 := by
    rw [gen_sim_signal_length]
    norm_num [pyInt]
  have hround : pyRound ((0.5 : ℚ) * 3) = 2 := by
    have hf : ⌊(0.5 : ℚ) * 3⌋ = 1 := by
      rw [Int.floor_eq_iff]
      norm_num
    unfold pyRound
    rw [hf]
    norm_num
  rw [hlen, hround]
  decide

/-- C7: any scenario other than 1 and 2 — in particular any scenario outside
`{1, 2, 3}` — takes the `else` branch of `gen_sim_signal` and yields exactly
the scenario-3 signal (same sample rate, samples and label); the function is
total, so no error is ever raised. -/
theorem C7_invalid_scenario_fallback (sin2pi expq : ℚ → ℚ) ( scenario : ℤ)
    (seconds : ℚ) (sr : ℤ) (h : scenario ∉ ({1, 2, 3} : Set ℤ)) :
    gen_sim_signal sin2pi expq scenario seconds sr
      = gen_sim_signal sin2pi expq 3 seconds sr := by
  simp only [Set.mem_insert_iff, Set.mem_singleton_iff, not_or] at h
  obtain ⟨h1, h2, _⟩ := h
  unfold gen_sim_signal
  rw [if_neg h1, if_neg h2, if_neg (by norm_num), if_neg (by norm_num)]

/-- Witness for C7_invalid_scenario_fallback at scenario 7. -/
theorem C7_invalid_scenario_fallback_witness :
    gen_sim_signal (fun _ => 0) (fun _ => 0) 7 1.25 48000
      = gen_sim_signal (fun _ => 0) (fun _ => 0) 3 1.25 48000 :=
  C7_invalid_scenario_fallback (fun _ => 0) (fun _ => 0) 7 1.25 48000
    (by norm_num)

/-- C4: from any state with `frameIndex = 0`, `stage ∈ {0, 1}` and
`running = true`, 30 ticks of the animation driver return the frame index to
0 and flip the stage exactly once: the stage is unchanged after each of the
first 29 ticks and equals `1 - stage` after the 30th. -/
theorem C4_anim_period (st : ℤ) (h : st = 0 ∨ st = 1) :
    animTick^[30] ⟨0, st, true⟩ = ⟨0, 1 - st, true⟩
      ∧ ∀ k, k < 30 → (animTick^[k] ⟨0, st, true⟩).stage = st := by
  rcases h with rfl | rfl
  · exact ⟨by decide, by decide⟩
  · exact ⟨by decide, by decide⟩

/-- Witness for C4_anim_period at stage 0. -/
theorem C4_anim_period_witness :
    animTick^[30] ⟨0, 0, true⟩ = ⟨0, 1 - 0, true⟩
      ∧ ∀ k, k < 30 → (animTick^[k] ⟨0, 0, true⟩).stage = 0 :=
  C4_anim_period 0 (Or.inl rfl)

theorem chunkDivAux (m c : ℕ) : (m - c + c) / (c + 1) = m / (c + 1) := by
  rcases le_or_lt c m with h | h
  · rw [Nat.sub_add_cancel h]
  · rw [Nat.sub_eq_zero_of_le h.le, Nat.zero_add,
      Nat.div_eq_of_lt (by omega), Nat.div_eq_of_lt (by omega)]

theorem derivedBitsSpec_nil (c : ℕ) (t : ℚ) :
    derivedBitsSpec [] (c + 1) t = [] := by
  unfold derivedBitsSpec
  simp only [List.length_nil, Nat.zero_add, Nat.add_sub_cancel]
  rw [Nat.div_eq_of_lt (Nat.lt_succ_self c)]
  simp

theorem bitsGo_eq_spec (c : ℕ) (t : ℚ) (l : List ℚ) :
    bitsGo c t l = derivedBitsSpec l (c + 1) t := by
  suffices H : ∀ n (l : List ℚ), l.length = n →
      bitsGo c t l = derivedBitsSpec l (c + 1) t by
    exact H l.length l rfl
  intro n
  induction n using Nat.strong_induction_on with
  | _ n ih =>
    intro l hl
    match l with
    | [] =>
      rw [derivedBitsSpec_nil]
      simp [bitsGo]
    | x :: xs =>
      simp only [List.length_cons] at hl
      have hrec := ih (xs.length - c) (by omega) (xs.drop c) (by simp)
      simp only [bitsGo]
      rw [hrec]
      unfold derivedBitsSpec
      simp only [List.length_cons, List.length_drop]
      have hcount : (xs.length + 1 + (c + 1) - 1) / (c + 1)
          = (xs.length - c + (c + 1) - 1) / (c + 1) + 1 := by
        have h1 : xs.length + 1 + (c + 1) - 1 = xs.length + (c + 1) := by omega
        have h2 : xs.length - c + (c + 1) - 1 = xs.length - c + c := by omega
        rw [h1, h2, Nat.add_div_right _ (Nat.succ_pos c), chunkDivAux]
      rw [hcount, List.range_succ_eq_map, List.map_cons, List.map_map]
      congr 1
      · simp
      · apply List.map_congr_left
        intro i _
        simp only [Function.comp_apply]
        have hdrop : (xs.drop c).drop (i * (c + 1))
            = (x :: xs).drop ((i + 1) * (c + 1)) := by
          rw [List.drop_drop]
          have h3 : (i + 1) * (c + 1) = (c + i * (c + 1)) + 1 := by ring
          rw [h3, List.drop_succ_cons]
        rw [hdrop]

/-- C5: `bits_from_samples` on a chunk size `>= 1` never fails; it maps the
empty sample list to the empty string and any sample list to a string of
exactly `ceil(len / chunk)` characters whose `i`-th character is `'1'`
exactly when the mean absolute value of the `i`-th consecutive chunk (the
last chunk may be shorter) reaches the threshold, and `'0'` otherwise. -/
theorem C5_bits_spec (samples : List ℚ) (chunk : ℕ) (thresh : ℚ)
    (h : 1 ≤ chunk) :
    bits_from_samples [] chunk thresh = some [] ∧
    ∃ out, bits_from_samples samples chunk thresh = some out ∧
      out.length = (samples.length + chunk - 1) / chunk ∧
      ∀ i, ∀ hi : i < out.length,
        out.get ⟨i, hi⟩
          = if thresh ≤ meanAbs ((samples.drop (i * chunk)).take chunk) then '1'
            else '0' := by
  obtain ⟨c, rfl⟩ : ∃ c, chunk = c + 1 := ⟨chunk - 1, by omega⟩
  refine ⟨by simp [bits_from_samples], derivedBitsSpec samples (c + 1) thresh,
    ?_, by simp [derivedBitsSpec], ?_⟩
  · unfold bits_from_samples
    rcases samples with _ | ⟨y, ys⟩
    · rw [derivedBitsSpec_nil]
      simp
    · simp only [List.isEmpty_cons, if_neg]
      rw [bitsGo_eq_spec]
      simp
  · intro i hi
    rw [List.get_eq_getElem]
    simp [derivedBitsSpec]

/-- Witness for C5_bits_spec at samples `[1, 0, 0]`, chunk 2, threshold
`1/2` (two chunks: `[1, 0]` and `[0]`). -/
theorem C5_bits_spec_witness :
    bits_from_samples [] 2 (1 / 2) = some [] ∧
    ∃ out, bits_from_samples [1, 0, 0] 2 (1 / 2) = some out ∧
      out.length = (([1, 0, 0] : List ℚ).length + 2 - 1) / 2 ∧
      ∀ i, ∀ hi : i < out.length,
        out.get ⟨i, hi⟩
          = if (1 / 2 : ℚ) ≤ meanAbs ((([1, 0, 0] : List ℚ).drop (i * 2)).take 2)
            then '1' else '0' :=
  C5_bits_spec [1, 0, 0] 2 (1 / 2) (by norm_num)

/-- C6: for a non-empty sample list the sparkline has exactly
`min(W, ceil(len / step))` glyphs, where `W = max(10, width)` and
`step = max(1, len // W)`; in particular it never exceeds `max(10, width)`. -/
theorem C6_sparkline_length (samples : List ℚ) (width : ℤ)
    (h : samples ≠ []) :
    (samples_to_sparkline samples width).length
        = min ((max 10 width).toNat)
            ((samples.length + max 1 (samples.length / (max 10 width).toNat) - 1)
              / max 1 (samples.length / (max 10 width).toNat)) ∧
      (samples_to_sparkline samples width).length ≤ (max 10 width).toNat := by
  unfold samples_to_sparkline
  rw [if_neg (by simpa using h)]
  simp only [List.length_map, List.length_take, List.length_range']
  exact ⟨trivial, inf_le_left⟩

/-- Witness for C6_sparkline_length at samples `[1, 2, 3]`, width 0. -/
theorem C6_sparkline_length_witness :
    (samples_to_sparkline [1, 2, 3] 0).length
        = min ((max 10 (0 : ℤ)).toNat)
            ((([1, 2, 3] : List ℚ).length
                + max 1 (([1, 2, 3] : List ℚ).length / (max 10 (0 : ℤ)).toNat) - 1)
              / max 1 (([1, 2, 3] : List ℚ).length / (max 10 (0 : ℤ)).toNat)) ∧
      (samples_to_sparkline [1, 2, 3] 0).length ≤ (max 10 (0 : ℤ)).toNat :=
  C6_sparkline_length [1, 2, 3] 0 (by simp)

/-- C10: pressing `"1"`, `"2"` or `"3"` in the wave viewer switches the
scenario to `int(key)`, regenerates the signal freshly for it and resets the
cursor to 0, while the paused flag is left exactly as it was (the
implementation preserves pause state across a scenario switch). -/
theorem C10_scenario_switch (sin2pi expq : ℚ → ℚ) (k : String) (s : WaveState)
    (h : k = "1" ∨ k = "2" ∨ k = "3") :
    (wvOnKey sin2pi expq k s).paused = s.paused ∧
    (wvOnKey sin2pi expq k s).cursor = 0 ∧
    WaveState.scenario (wvOnKey sin2pi expq k s) = scenarioOfKey k ∧
    (wvOnKey sin2pi expq k s).sig
      = gen_sim_signal sin2pi expq (scenarioOfKey k) 1.25 48000 := by
  rcases h with rfl | rfl | rfl <;>
    simp [wvOnKey, wvRegenerate, scenarioOfKey]

/-- Witness for C10_scenario_switch: key `"2"` on a paused state. -/
theorem C10_scenario_switch_witness :
    (wvOnKey (fun _ => 0) (fun _ => 0) "2" pausedProbe).paused
        = pausedProbe.paused ∧
      (wvOnKey (fun _ => 0) (fun _ => 0) "2" pausedProbe).cursor = 0 ∧
      WaveState.scenario (wvOnKey (fun _ => 0) (fun _ => 0) "2" pausedProbe)
        = scenarioOfKey "2" ∧
      (wvOnKey (fun _ => 0) (fun _ => 0) "2" pausedProbe).sig
        = gen_sim_signal (fun _ => 0) (fun _ => 0) (scenarioOfKey "2") 1.25 48000 :=
  C10_scenario_switch (fun _ => 0) (fun _ => 0) "2" pausedProbe
    (Or.inr (Or.inl rfl))

theorem wv_tick_step : pyInt (((48000 : ℤ) : ℚ) * 0.03) = 1440 := by
  norm_num [pyInt]

/-- C3: in every state of the wave-viewer session reachable from a fresh
mount by ticks and key events (pause toggles, regeneration, scenario
switches), the playback cursor satisfies
`0 <= cursor < max(1, len(sig.samples))`: a tick adds
`int(sr * 0.03) = 1440` and resets the cursor to 0 whenever it would reach
or exceed the 60000-sample count, and every regeneration resets it to 0. -/
theorem C3_cursor_invariant (sin2pi expq : ℚ → ℚ) (s : WaveState)
    (h : WvReachable sin2pi expq s) :
    0 ≤ s.cursor ∧ s.cursor < max 1 ((s.sig.samples.length : ℤ)) := by
  suffices H : s.sig.sr = 48000 ∧ s.sig.samples.length = 60000 ∧
      0 ≤ s.cursor ∧ s.cursor < 60000 by
    obtain ⟨_, hlen, h0, h1⟩ := H
    refine ⟨h0, ?_⟩
    rw [hlen]
    omega
  induction h with
  | init =>
    exact ⟨gen_sim_signal_sr _ _ _ _ _, gen_default_length _ _ _, le_refl 0,
      by norm_num [wvInit, wvRegenerate]⟩
  | @tick s hr ih =>
    obtain ⟨hsr, hlen, h0, h1⟩ := ih
    by_cases hp : s.paused
    · rw [wvTick, if_pos hp]
      exact ⟨hsr, hlen, h0, h1⟩
    · rw [wvTick, if_neg hp]
      simp only [hsr]
      rw [wv_tick_step]
      by_cases hge : (s.sig.samples.length : ℤ) ≤ s.cursor + 1440
      · rw [if_pos hge]
        exact ⟨hsr, hlen, le_refl 0, by norm_num⟩
      · rw [if_neg hge]
        rw [hlen] at hge
        refine ⟨hsr, hlen, ?_, ?_⟩
        · show (0 : ℤ) ≤ s.cursor + 1440
          omega
        · show s.cursor + 1440 < 60000
          omega
  | @key s k hr ih =>
    obtain ⟨hsr, hlen, h0, h1⟩ := ih
    rw [wvOnKey]
    split_ifs
    · exact ⟨hsr, hlen, h0, h1⟩
    · exact ⟨hsr, hlen, h0, h1⟩
    · exact ⟨gen_sim_signal_sr _ _ _ _ _, gen_default_length _ _ _, le_refl 0,
        by norm_num [wvRegenerate]⟩
    · exact ⟨gen_sim_signal_sr _ _ _ _ _, gen_default_length _ _ _, le_refl 0,
        by norm_num [wvRegenerate]⟩
    · exact ⟨hsr, hlen, h0, h1⟩

/-- Witness for C3_cursor_invariant at the freshly mounted session. -/
theorem C3_cursor_invariant_witness :
    0 ≤ (wvInit (fun _ => 0) (fun _ => 0)).cursor ∧
      (wvInit (fun _ => 0) (fun _ => 0)).cursor
        < max 1 (((wvInit (fun _ => 0) (fun _ => 0)).sig.samples.length : ℤ)) :=
  C3_cursor_invariant (fun _ => 0) (fun _ => 0) _ WvReachable.init

theorem stamp_length (l : List Char) (pos : ℕ) (seg : List Char)
    (h : pos + seg.length ≤ l.length) :
    (stamp l pos seg).length = l.length := by
  simp only [stamp, List.length_append, List.length_take, List.length_drop]
  omega

theorem stampSetZ_length (seg : List Char) :
    ∀ (r : List Char) (pos : ℤ), (stampSetZ r pos seg).length = r.length := by
  induction seg with
  | nil => intro r pos; rfl
  | cons c cs ih =>
    intro r pos
    rw [stampSetZ, ih]
    split_ifs <;> simp

theorem dashRow_length (p : ℕ) (r : List Char) :
    (dashRow p r).length = r.length := by
  unfold dashRow
  generalize List.range' (p + bell_col + 10) (house_col + 8 - (bell_col + 10)) = xs
  induction xs generalizing r with
  | nil => rfl
  | cons x xs ih =>
    rw [List.foldl_cons, ih]
    simp

theorem labelsRow_length (p : ℕ) (r : List Char) :
    (labelsRow p r).length = r.length := by
  simp [labelsRow, stampSetZ_length]

theorem getD_len_le (A : List (List Char)) (i b : ℕ)
    (hA : ∀ s ∈ A, s.length ≤ b) : (A.getD i []).length ≤ b := by
  by_cases h : i < A.length
  · simp only [List.getD_eq_getElem?_getD, List.getElem?_eq_getElem h,
      Option.getD_some]
    exact hA _ (List.getElem_mem h)
  · rw [List.getD_eq_getElem?_getD, List.getElem?_eq_none (by omega)]
    simp

theorem bell_len_le : ∀ s ∈ bellArt, s.length ≤ 10 := by decide

theorem laptop_len_le : ∀ s ∈ laptopArt, s.length ≤ 17 := by decide

theorem house_len_le : ∀ s ∈ houseArt, s.length ≤ 10 := by decide

theorem artRow_length (p i : ℕ) : (artRow p i).length = p + scene_w := by
  have hstep : ∀ (l : List Char) (A : List (List Char)) (col b : ℕ),
      l.length = p + scene_w → (∀ s ∈ A, s.length ≤ b) → col + b ≤ scene_w →
      (if i < A.length then stamp l (p + col) (A.getD i []) else l).length
        = p + scene_w := by
    intro l A col b hl hA hcb
    split_ifs
    · rw [stamp_length]
      · exact hl
      · have := getD_len_le A i b hA
        omega
    · exact hl
  simp only [artRow]
  exact hstep _ _ _ 10
    (hstep _ _ _ 17
      (hstep _ _ _ 10 (by simp) bell_len_le (by decide))
      laptop_len_le (by decide))
    house_len_le (by decide)

theorem canvasInit_length (p : ℕ) : (canvasInit p).length = path_y + 4 := by
  simp only [canvasInit, List.length_append, List.length_map,
    List.length_range, List.length_replicate, path_y]
  omega

theorem canvasInit_row_length (p : ℕ) :
    ∀ l ∈ canvasInit p, l.length = p + scene_w := by
  intro l hl
  rcases List.mem_append.mp hl with h | h
  · obtain ⟨i, _, rfl⟩ := List.mem_map.mp h
    exact artRow_length p i
  · rw [List.eq_of_mem_replicate h]
    simp

theorem set_rows_length (c : List (List Char)) (n : ℕ) (a : List Char)
    (w : ℕ) (hc : ∀ l ∈ c, l.length = w) (ha : a.length = w) :
    ∀ l ∈ c.set n a, l.length = w := by
  intro l hl
  rcases List.mem_or_eq_of_mem_set hl with h | rfl
  · exact hc l h
  · exact ha

theorem getD_row_length (c : List (List Char)) (w n : ℕ)
    (hc : ∀ l ∈ c, l.length = w) (hn : n < c.length) :
    (c.getD n []).length = w := by
  simp only [List.getD_eq_getElem?_getD, List.getElem?_eq_getElem hn,
    Option.getD_some]
  exact hc _ (List.getElem_mem hn)

theorem canvasWithPath_length (p : ℕ) :
    (canvasWithPath p).length = path_y + 4 := by
  rw [canvasWithPath, List.length_set, canvasInit_length]

theorem canvasWithPath_row_length (p : ℕ) :
    ∀ l ∈ canvasWithPath p, l.length = p + scene_w := by
  apply set_rows_length _ _ _ _ (canvasInit_row_length p)
  rw [dashRow_length]
  exact getD_row_length _ _ _ (canvasInit_row_length p)
    (by rw [canvasInit_length]; omega)

theorem canvasStatic_length (p : ℕ) :
    (canvasStatic p).length = path_y + 4 := by
  rw [canvasStatic, List.length_set, canvasWithPath_length]

theorem canvasStatic_row_length (p : ℕ) :
    ∀ l ∈ canvasStatic p, l.length = p + scene_w := by
  apply set_rows_length _ _ _ _ (canvasWithPath_row_length p)
  rw [labelsRow_length]
  exact getD_row_length _ _ _ (canvasWithPath_row_length p)
    (by rw [canvasWithPath_length]; simp only [labels_y]; omega)

theorem buildCanvas_length (i stage : ℤ) (p : ℕ) :
    (buildCanvas i stage p).length = path_y + 4 := by
  rw [buildCanvas, List.length_set, canvasStatic_length]

theorem buildCanvas_row_length (i stage : ℤ) (p : ℕ) :
    ∀ l ∈ buildCanvas i stage p, l.length = p + scene_w := by
  apply set_rows_length _ _ _ _ (canvasStatic_row_length p)
  rw [stampSetZ_length]
  exact getD_row_length _ _ _ (canvasStatic_row_length p)
    (by rw [canvasStatic_length]; simp only [sig_y]; omega)

/-- C2 (amended): every line of `build_scene(frameIndex, stage,
terminalWidth)` is exactly `padLeft + sceneWidth` characters wide — not the
canvas width `max(terminalWidth, sceneWidth + 4)` — where `padLeft =
max(0, (max(terminalWidth, sceneWidth + 4) - sceneWidth) // 2)` centers the
scene horizontally. -/
theorem C2_line_width (i stage term_w : ℤ) (l : List Char)
    (h : l ∈ build_scene_lines i stage term_w) :
    l.length = (pad_left_of term_w).toNat + scene_w :=
  buildCanvas_row_length i stage (pad_left_of term_w).toNat l h

/-- Witness for C2_line_width: the first line at `terminalWidth = 80` has
`pad_left_of 80 = 4` plus `scene_w = 72`, i.e. 76 characters. -/
theorem C2_line_width_witness :
    ((build_scene_lines 0 0 80).getD 0 []).length
      = (pad_left_of 80).toNat + scene_w :=
  C2_line_width 0 0 80 ((build_scene_lines 0 0 80).getD 0 []) (by decide)

/-- C2 is false as stated: at `terminalWidth = 80` the claimed canvas width
is `max(80, sceneWidth + 4) = 80`, but the lines of `build_scene` are
`padLeft + sceneWidth = 76` characters wide. -/
theorem C2_counterexample :
    ¬ ∀ l ∈ build_scene_lines 0 0 80,
        (l.length : ℤ) = max 80 ((scene_w : ℤ) + 4) := by
  decide

/-- C8: at a fixed stage and terminal width, the line lists produced by
`build_scene` for any two frame indices agree on every row other than the
marker row `sig_y` (the row one above the connector line): the marker row is
the only row that can change between frames. -/
theorem C8_only_marker_row (i j stage term_w : ℤ) (r : ℕ) (h : r ≠ sig_y) :
    (build_scene_lines i stage term_w)[r]?
      = (build_scene_lines j stage term_w)[r]? := by
  unfold build_scene_lines buildCanvas
  rw [List.getElem?_set_ne (Ne.symm h), List.getElem?_set_ne (Ne.symm h)]

/-- Witness for C8_only_marker_row: frames 0 and 7 share row 0. -/
theorem C8_only_marker_row_witness :
    (build_scene_lines 0 0 80)[0]? = (build_scene_lines 7 0 80)[0]? :=
  C8_only_marker_row 0 7 0 80 0 (by decide)

theorem sigStart_nonneg (stage : ℤ) (p : ℕ) : 0 ≤ sigStart stage p := by
  unfold sigStart
  split_ifs <;>
    simp only [bell_col, laptop_col, house_col, col_width, left_pad] <;>
    omega

theorem sigEnd_sub_pos (stage : ℤ) (p : ℕ) :
    1 ≤ sigEnd stage p - sigStart stage p := by
  unfold sigEnd sigStart
  split_ifs <;>
    simp only [bell_col, laptop_col, house_col, col_width, left_pad] <;>
    omega

theorem sigEnd_le (stage : ℤ) (p : ℕ) : sigEnd stage p ≤ (p : ℤ) + 48 := by
  unfold sigEnd
  split_ifs <;>
    simp only [bell_col, laptop_col, house_col, col_width, left_pad] <;>
    omega

theorem sigStart_le_markerX (i stage : ℤ) (p : ℕ) :
    sigStart stage p ≤ markerX i stage p :=
  le_add_of_nonneg_right (le_max_left 0 _)

theorem markerX_le_end (i stage : ℤ) (p : ℕ) :
    markerX i stage p ≤ sigEnd stage p := by
  have hd := sigEnd_sub_pos stage p
  have hspan : sigSpan stage p ≤ sigEnd stage p - sigStart stage p := by
    unfold sigSpan
    exact max_le hd le_rfl
  have hmax : max 0 (min i (sigSpan stage p))
      ≤ sigEnd stage p - sigStart stage p :=
    max_le (by omega) ((min_le_right _ _).trans hspan)
  calc markerX i stage p
      = sigStart stage p + max 0 (min i (sigSpan stage p)) := rfl
    _ ≤ sigStart stage p + (sigEnd stage p - sigStart stage p) :=
        add_le_add_left hmax _
    _ = sigEnd stage p := by ring

theorem markerX_within (i stage : ℤ) (p : ℕ) :
    0 ≤ markerX i stage p ∧ markerX i stage p + 2 < (p : ℤ) + scene_w := by
  have h0 := (sigStart_nonneg stage p).trans (sigStart_le_markerX i stage p)
  have h1 := (markerX_le_end i stage p).trans (sigEnd_le stage p)
  have h2 : (scene_w : ℤ) = 72 := by
    norm_num [scene_w, house_col, col_width, left_pad]
  omega

theorem stampSetZ_getD_head (base : List Char) (x : ℤ) (a b c : Char)
    (hx0 : 0 ≤ x) (hx2 : x + 2 < (base.length : ℤ)) :
    (stampSetZ base x [a, b, c]).getD x.toNat ' ' = a := by
  have h1 : 0 ≤ x ∧ x < (base.length : ℤ) := ⟨hx0, by omega⟩
  have h2 : 0 ≤ x + 1 ∧ x + 1 < (base.length : ℤ) := ⟨by omega, by omega⟩
  have h3 : 0 ≤ x + 1 + 1 ∧ x + 1 + 1 < (base.length : ℤ) := ⟨by omega, by omega⟩
  simp only [stampSetZ]
  rw [if_pos h1]
  simp only [List.length_set]
  rw [if_pos h2]
  simp only [List.length_set]
  rw [if_pos h3]
  rw [List.getD_eq_getElem?_getD,
    List.getElem?_set_ne (by omega),
    List.getElem?_set_ne (by omega),
    List.getElem?_set_eq_of_lt _ (by omega)]
  rfl

theorem marker_char (i stage : ℤ) (p : ℕ) :
    ((buildCanvas i stage p).getD sig_y []).getD (markerX i stage p).toNat ' '
      = ')' := by
  obtain ⟨hx0, hx2⟩ := markerX_within i stage p
  have hbase : ((canvasStatic p).getD sig_y []).length = p + scene_w :=
    getD_row_length _ _ _ (canvasStatic_row_length p)
      (by rw [canvasStatic_length]; simp only [sig_y]; omega)
  have hrow : (buildCanvas i stage p).getD sig_y []
      = stampSetZ ((canvasStatic p).getD sig_y []) (markerX i stage p)
          ")))".toList := by
    rw [buildCanvas, List.getD_eq_getElem?_getD,
      List.getElem?_set_eq_of_lt _
        (by rw [canvasStatic_length]; simp only [sig_y, path_y]; omega)]
    rfl
  rw [hrow, show ")))".toList = [')', ')', ')'] from rfl]
  apply stampSetZ_getD_head
  · exact hx0
  · rw [hbase]
    push_cast
    omega

/-- C9: the leftmost column of the `)))` marker is
`start_x + clamp(frameIndex, 0, span)` for the stage-dependent start column;
it is monotone in the frame index, never leaves `[start_x, end_x]`, and the
character written at it in the marker row of the canvas is `')'`. -/
theorem C9_marker_position (i j stage : ℤ) (p : ℕ) (hij : i ≤ j) :
    markerX i stage p = sigStart stage p + max 0 (min i (sigSpan stage p)) ∧
    markerX i stage p ≤ markerX j stage p ∧
    sigStart stage p ≤ markerX i stage p ∧
    markerX i stage p ≤ sigEnd stage p ∧
    ((buildCanvas i stage p).getD sig_y []).getD
        (markerX i stage p).toNat ' ' = ')' := by
  refine ⟨rfl, ?_, sigStart_le_markerX i stage p, markerX_le_end i stage p,
    marker_char i stage p⟩
  exact add_le_add_left (max_le_max le_rfl (min_le_min hij le_rfl)) _

/-- Witness for C9_marker_position at frames 0 ≤ 5, stage 0, padding 4. -/
theorem C9_marker_position_witness :
    markerX 0 0 4 = sigStart 0 4 + max 0 (min 0 (sigSpan 0 4)) ∧
    markerX 0 0 4 ≤ markerX 5 0 4 ∧
    sigStart 0 4 ≤ markerX 0 0 4 ∧
    markerX 0 0 4 ≤ sigEnd 0 4 ∧
    ((buildCanvas 0 0 4).getD sig_y []).getD (markerX 0 0 4).toNat ' ' = ')' :=
  C9_marker_position 0 5 0 4 (by decide)
